import Mathlib

/-!
Shallow embedding of the voting front-end (`CreateVote.tsx` and
`ParticipatedVotes.tsx`) together with the spec-modelled vote-ID allocator.
External collaborators (document store, contract proxy, wallet) are modelled
as oracle parameters; each handler is a pure function from its inputs and
oracle results to the UI state it leaves behind, together with the ordered
trace of externally visible effects it issued.
-/

namespace Voting

/-- A value thrown by JavaScript code: either an `Error` object carrying a
message, or any other thrown value. -/
inductive Thrown where
  | error (msg : String)
  | nonError
  deriving Repr, DecidableEq

/-- The uniform catch-block logic shared by `fetchData`, `fetchContractDetails`,
`fetchVotes` and the outer catch of `handleSubmit`: `error instanceof Error`
stores `error.message`, anything else stores the fixed fallback string. -/
def catchMessage : Thrown → String
  | .error msg => msg
  | .nonError => "An unexpected error occurred"

/-- The fixed string stored by the inner catch of the add-voters block in
`handleSubmit` (`CreateVote.tsx` line 170), regardless of what was thrown. -/
def addVotersFailMsg : String :=
  "Failed to add voters. Please check the addresses and try again."

/-- Modelled from the spec: `getCurrentVoteId` lives in
`src/utils/fetchAndUpdateVoteId.ts`, which is not under `src/`; the spec
says it reads the shared counter and returns it. -/
def getCurrentVoteId (counter : Nat) : Nat := counter

/-- Modelled from the spec: `fetchAndUpdateVoteId` lives in
`src/utils/fetchAndUpdateVoteId.ts`, which is not under `src/`; the spec
says it "reads counter, increments, persists, returns new value".
The result is `(returned value, persisted counter after the call)`. -/
def fetchAndUpdateVoteId (counter : Nat) : Nat × Nat :=
  (counter + 1, counter + 1)

/-- Sequential (non-overlapping) calls to the allocator: starting from
persisted counter `c`, perform `n` calls, collecting the returned values in
order together with the final persisted counter. -/
def runAllocator (c : Nat) : Nat → List Nat × Nat
  | 0 => ([], c)
  | n + 1 =>
    let r := fetchAndUpdateVoteId c
    let rest := runAllocator r.2 n
    (r.1 :: rest.1, rest.2)

/-- Firestore `arrayUnion` semantics on the `votes` field of a `usersVotes`
document: append the element unless it is already present. -/
def arrayUnion (votes : List (Nat × String)) (p : Nat × String) : List (Nat × String) :=
  if p ∈ votes then votes else votes ++ [p]

/-- The address filtering in `handleSubmit` (`CreateVote.tsx` lines 156-158):
keep the entries satisfying `ethers.isAddress`, convert each kept entry with
`ethers.getAddress`. -/
def checksummedAddresses (isAddress : String → Bool) (getAddress : String → String)
    (usersInGroup : List String) : List String :=
  (usersInGroup.filter isAddress).map getAddress

/-- An externally visible effect issued by `handleSubmit`, in issue order. -/
inductive Effect where
  | counterIncrement (newValue : Nat)
  | createVote (voteId : Nat) (name : String) (startTime : Int) (duration : Int)
      (groupId : Int) (options : List String)
  | usersVotesMerge (docKey : String) (voteId : Nat) (voteName : String)
  | addVoters (voteId : Nat) (addresses : List String) (groupId : Int)
  deriving Repr, DecidableEq

/-- Oracle results for the external calls `handleSubmit` makes, plus the
persisted state it starts from. A `.error` result means that call throws. -/
structure SubmitEnv where
  counter : Nat
  usersVotesDoc : List (Nat × String)
  createVoteResult : Except Thrown Unit
  setDocResult : Except Thrown Unit
  getUsersResult : Except Thrown (List String)
  addVotersResult : Except Thrown Unit
  isAddress : String → Bool
  getAddress : String → String

/-- The state `handleSubmit` leaves behind: the `error` field (None when no
catch ran), the ordered trace of issued effects, the persisted counter, and
the `usersVotes` document content. -/
structure SubmitResult where
  error : Option String
  effects : List Effect
  counter : Nat
  usersVotesDoc : List (Nat × String)
  deriving Repr, DecidableEq

/-- Embedding of `handleSubmit` (`CreateVote.tsx` lines 121-182).
`startTime` stands for `BigInt(Date.parse(startVoteTime) / 1000)` and
`voteDurationDays` for `BigInt(voteDuration)`, both already parsed; BigInt
arithmetic is exact, so they are `Int`. `createVoteResult` covers
`contract.createVote` together with its `tx.wait()`, and likewise
`addVotersResult`. The `groupId` string is modelled by the integer it
denotes (the code passes `BigInt(groupId)` to the contract and the raw
string to `getUsersByGroupId`). -/
def handleSubmit (env : SubmitEnv) (account : Option String) (voteName : String)
    (startTime : Int) (voteDurationDays : Int) (groupId : Int)
    (voteOptions : List String) : SubmitResult :=
  match account with
  | none =>
    { error := some "Account is not available.", effects := [],
      counter := env.counter, usersVotesDoc := env.usersVotesDoc }
  | some acc =>
    let duration : Int := voteDurationDays * 24 * 60 * 60
    let groupID : Int := groupId
    let options := voteOptions.filter (fun o => o.trim ≠ "")
    if duration ≤ 0 ∨ groupID ≤ 0 then
      { error := some "Duration and group ID must be a positive number.",
        effects := [], counter := env.counter, usersVotesDoc := env.usersVotesDoc }
    else
      let voteID := (fetchAndUpdateVoteId env.counter).1
      let counter' := (fetchAndUpdateVoteId env.counter).2
      let e2 := [Effect.counterIncrement counter',
                 Effect.createVote voteID voteName startTime duration groupID options]
      match env.createVoteResult with
      | .error t =>
        { error := some (catchMessage t), effects := e2,
          counter := counter', usersVotesDoc := env.usersVotesDoc }
      | .ok _ =>
        let e3 := e2 ++ [Effect.usersVotesMerge acc.toLower voteID voteName]
        match env.setDocResult with
        | .error t =>
          { error := some (catchMessage t), effects := e3,
            counter := counter', usersVotesDoc := env.usersVotesDoc }
        | .ok _ =>
          let doc' := arrayUnion env.usersVotesDoc (voteID, voteName)
          match env.getUsersResult with
          | .error _ =>
            { error := some addVotersFailMsg, effects := e3,
              counter := counter', usersVotesDoc := doc' }
          | .ok users =>
            let checksummed := checksummedAddresses env.isAddress env.getAddress users
            if checksummed.length = 0 then
              { error := some addVotersFailMsg, effects := e3,
                counter := counter', usersVotesDoc := doc' }
            else
              let e4 := e3 ++ [Effect.addVoters voteID checksummed groupID]
              match env.addVotersResult with
              | .error _ =>
                { error := some addVotersFailMsg, effects := e4,
                  counter := counter', usersVotesDoc := doc' }
              | .ok _ =>
                { error := none, effects := e4,
                  counter := counter', usersVotesDoc := doc' }

/-- The five parallel arrays returned by `contract.getAccessibleVotes`.
Times and durations are epoch seconds, as on the contract. -/
structure AccessibleVotes where
  voteIDs : List Nat
  voteNames : List String
  startVoteTimes : List Nat
  durations : List Nat
  openStatuses : List Bool
  deriving Repr, DecidableEq

/-- One row of the `ParticipatedVotes` table. Dates are kept in epoch
milliseconds, exactly as the code builds its `Date` objects (`* 1000`). -/
structure VoteRow where
  id : Nat
  name : String
  startDateMs : Nat
  endDateMs : Nat
  status : Bool
  deriving Repr, DecidableEq

/-- Embedding of the `formattedVotes` mapping (`ParticipatedVotes.tsx` lines
99-111): iterate over `voteIDs` with the index, read the parallel arrays at
that index, and compute `status = openStatuses[index] && currentTime < endDate`
where both sides of `<` are epoch milliseconds. -/
def formattedVotes (nowMs : Nat) (r : AccessibleVotes) : List VoteRow :=
  (List.range r.voteIDs.length).map (fun index =>
    let start := r.startVoteTimes.getD index 0
    let dur := r.durations.getD index 0
    { id := r.voteIDs.getD index 0
      name := r.voteNames.getD index ""
      startDateMs := start * 1000
      endDateMs := (start + dur) * 1000
      status := r.openStatuses.getD index false && decide (nowMs < (start + dur) * 1000) })

/-- The state `fetchVotes` leaves behind: the `error` field, the rows stored
by `setVotes`, and the ordered list of `getAccessibleVotes` calls issued. -/
structure FetchVotesResult where
  error : Option String
  votes : List VoteRow
  calls : List Int
  deriving Repr, DecidableEq

/-- Embedding of `fetchVotes` (`ParticipatedVotes.tsx` lines 88-124).
`groupIdForUser` models `getGroupIdForUser`, applied to the lowercased
account; `getAccessible` models the contract read, which can throw. -/
def fetchVotes (account : String) (groupIdForUser : String → Option Int)
    (getAccessible : Int → Except Thrown AccessibleVotes) (nowMs : Nat) :
    FetchVotesResult :=
  match groupIdForUser account.toLower with
  | none => { error := some "Group ID not found for the user", votes := [], calls := [] }
  | some gid =>
    match getAccessible gid with
    | .error t => { error := some (catchMessage t), votes := [], calls := [gid] }
    | .ok r => { error := none, votes := formattedVotes nowMs r, calls := [gid] }

/-- The state `fetchContractDetails` leaves behind: the `error` field and the
contract address the proxy was instantiated at, when one was. -/
structure FetchDetailsResult where
  error : Option String
  contract : Option String
  deriving Repr, DecidableEq

/-- JavaScript truthiness of a nullable address string: `null`/`undefined`
and the empty string are falsy. -/
def truthyAddr : Option String → Bool
  | some a => a ≠ ""
  | none => false

/-- Embedding of `fetchContractDetails` (`ParticipatedVotes.tsx` lines 45-80),
run in the `status === "connected"` state with an account present.
`getDocVoteManagers` models the `voteManagers/{key}` lookup: it is consulted
at the lowercased account only in the manager branch, `.ok none` meaning the
document does not exist and `.ok (some a)` that it exists with
`contractAddress = a`. `userDetails` is the rank-and-file user's
`contractAddress` field when the details document loaded. -/
def fetchContractDetails (account : String) (isValidUser : Bool)
    (getDocVoteManagers : String → Except Thrown (Option String))
    (userDetails : Option String) (ethereumAvailable : Bool)
    (createContractResult : Except Thrown Unit) : FetchDetailsResult :=
  let step : Except Thrown (Option String) :=
    if isValidUser then getDocVoteManagers account.toLower
    else match userDetails with
      | some u => .ok (some u)
      | none => .ok none
  match step with
  | .error t => { error := some (catchMessage t), contract := none }
  | .ok contractAddress =>
    if truthyAddr contractAddress && ethereumAvailable then
      match createContractResult with
      | .error t => { error := some (catchMessage t), contract := none }
      | .ok _ => { error := none, contract := contractAddress }
    else
      { error := some "Contract details not found!", contract := none }

/-- Content of a `voteManagers` document as `fetchData` destructures it:
the contract address and the group map (only its keys are used). -/
structure ManagerData where
  contractAddress : String
  groupKeys : List String
  deriving Repr, DecidableEq

/-- The state `fetchData` leaves behind in `CreateVote`. -/
structure FetchDataResult where
  error : Option String
  contractSet : Bool
  voteIdShown : Option Nat
  availableGroups : List String
  deriving Repr, DecidableEq

/-- Embedding of `fetchData` (`CreateVote.tsx` lines 39-76).
`getDocVoteManagers` models the `voteManagers/{key}` lookup, consulted at the
lowercased account; `counter` is the persisted vote-ID counter read by the
spec-modelled `getCurrentVoteId`. -/
def fetchData (status : String) (account : Option String)
    (getDocVoteManagers : String → Except Thrown (Option ManagerData))
    (ethereumAvailable : Bool) (createContractResult : Except Thrown Unit)
    (counter : Nat) : FetchDataResult :=
  match account with
  | some acc =>
    if status = "connected" then
      match getDocVoteManagers acc.toLower with
      | .error t =>
        { error := some (catchMessage t), contractSet := false,
          voteIdShown := none, availableGroups := [] }
      | .ok none =>
        { error := some "No contract information available!", contractSet := false,
          voteIdShown := none, availableGroups := [] }
      | .ok (some d) =>
        if ethereumAvailable then
          match createContractResult with
          | .error t =>
            { error := some (catchMessage t), contractSet := false,
              voteIdShown := none, availableGroups := [] }
          | .ok _ =>
            { error := none, contractSet := true,
              voteIdShown := some (getCurrentVoteId counter),
              availableGroups := d.groupKeys }
        else
          { error := some "Ethereum object is not available.", contractSet := false,
            voteIdShown := none, availableGroups := [] }
    else
      { error := none, contractSet := false, voteIdShown := none, availableGroups := [] }
  | none =>
    { error := none, contractSet := false, voteIdShown := none, availableGroups := [] }

/-- Events that mutate the `voteOptions` UI state of `CreateVote`:
`handleOptionChange` (only reachable with an in-range index, since the text
fields are rendered by mapping over `voteOptions`), `addOption`, and
`resetForm`. -/
inductive OptionsEvent where
  | change (index : Nat) (value : String)
  | add
  | reset
  deriving Repr, DecidableEq

/-- The `voteOptions` list together with the `error` field, the only state
those handlers touch. -/
structure OptionsState where
  voteOptions : List String
  error : Option String
  deriving Repr, DecidableEq

/-- Initial state: `useState(['', ''])` (`CreateVote.tsx` line 32). -/
def initOptions : OptionsState := { voteOptions := ["", ""], error := none }

/-- One step of the `voteOptions` state (`CreateVote.tsx` lines 98-119):
`handleOptionChange` overwrites the entry at `index`; `addOption` appends an
empty option when fewer than 10 exist and otherwise only sets the error;
`resetForm` restores two empty options. -/
def stepOptions (s : OptionsState) : OptionsEvent → OptionsState
  | .change index value => { s with voteOptions := s.voteOptions.set index value }
  | .add =>
    if s.voteOptions.length < 10 then
      { s with voteOptions := s.voteOptions ++ [""] }
    else
      { s with error := some "A maximum of 10 options are allowed." }
  | .reset => { s with voteOptions := ["", ""] }

/-- A reachable `voteOptions` state: the fold of a sequence of events from
the initial state. -/
def runOptions (events : List OptionsEvent) : OptionsState :=
  events.foldl stepOptions initOptions

/-- A concrete environment in which every external call succeeds: counter at
5, one existing `usersVotes` entry, three group members of which the two of
length 4 pass validation. -/
def envOk : SubmitEnv :=
  { counter := 5, usersVotesDoc := [(1, "old")],
    createVoteResult := .ok (), setDocResult := .ok (),
    getUsersResult := .ok ["aaaa", "bad", "bbbb"],
    addVotersResult := .ok (),
    isAddress := fun a => a.length == 4,
    getAddress := fun a => "X" ++ a }

/-- A concrete environment whose `addVoters` call throws an `Error` with
message "boom" while everything earlier succeeds. -/
def envBoom : SubmitEnv :=
  { counter := 0, usersVotesDoc := [],
    createVoteResult := .ok (), setDocResult := .ok (),
    getUsersResult := .ok ["aaaa"],
    addVotersResult := .error (Thrown.error "boom"),
    isAddress := fun _ => true,
    getAddress := fun a => a }

/-- The `i`-th value returned by a run of sequential allocator calls starting
from persisted counter `c` is `c + i + 1`. -/
theorem runAllocator_get (n : Nat) : ∀ c i : Nat, i < n →
    ((runAllocator c n).1)[i]? = some (c + i + 1) := by
  induction n with
  | zero => intro c i hi; omega
  | succ n ih =>
    intro c i hi
    cases i with
    | zero => simp [runAllocator, fetchAndUpdateVoteId]
    | succ i =>
      rw [show c + (i + 1) + 1 = c + 1 + i + 1 by omega]
      simpa [runAllocator, fetchAndUpdateVoteId] using ih (c + 1) i (by omega)

/-- After `n` sequential allocator calls from counter `c`, the persisted
counter is `c + n`. -/
theorem runAllocator_snd (n : Nat) : ∀ c : Nat, (runAllocator c n).2 = c + n := by
  induction n with
  | zero => intro c; simp [runAllocator]
  | succ n ih => intro c; simp [runAllocator, fetchAndUpdateVoteId, ih]; omega

/-- The row at index `i` of the `formattedVotes` mapping, written out. -/
theorem formattedVotes_getElem (nowMs : Nat) (r : AccessibleVotes) (i : Nat)
    (hi : i < r.voteIDs.length) :
    (formattedVotes nowMs r)[i]? = some
      { id := r.voteIDs.getD i 0
        name := r.voteNames.getD i ""
        startDateMs := r.startVoteTimes.getD i 0 * 1000
        endDateMs := (r.startVoteTimes.getD i 0 + r.durations.getD i 0) * 1000
        status := r.openStatuses.getD i false &&
          decide (nowMs < (r.startVoteTimes.getD i 0 + r.durations.getD i 0) * 1000) } := by
  simp [formattedVotes, List.getElem?_map, List.getElem?_range, hi]

/-- The mapping produces one row per entry of `voteIDs`. -/
theorem formattedVotes_length (nowMs : Nat) (r : AccessibleVotes) :
    (formattedVotes nowMs r).length = r.voteIDs.length := by
  simp [formattedVotes]

/-- One step of the options state keeps the list length within `[2, 10]`. -/
theorem stepOptions_length_bounds (s : OptionsState) (e : OptionsEvent)
    (h2 : 2 ≤ s.voteOptions.length) (h10 : s.voteOptions.length ≤ 10) :
    2 ≤ (stepOptions s e).voteOptions.length ∧
      (stepOptions s e).voteOptions.length ≤ 10 := by
  cases e with
  | change i v => simp [stepOptions]; omega
  | add =>
    by_cases h : s.voteOptions.length < 10
    · simp [stepOptions, h]; omega
    · simp [stepOptions, h]; omega
  | reset => simp [stepOptions]

/-- Folding any event sequence from a state within bounds stays in bounds. -/
theorem foldl_stepOptions_bounds (events : List OptionsEvent) :
    ∀ s : OptionsState, 2 ≤ s.voteOptions.length → s.voteOptions.length ≤ 10 →
      2 ≤ (events.foldl stepOptions s).voteOptions.length ∧
        (events.foldl stepOptions s).voteOptions.length ≤ 10 := by
  induction events with
  | nil => intro s h2 h10; exact ⟨h2, h10⟩
  | cons e es ih =>
    intro s h2 h10
    have hb := stepOptions_length_bounds s e h2 h10
    simpa using ih (stepOptions s e) hb.1 hb.2

/-- `arrayUnion` only ever appends: the old list is an initial segment of
the merged list. -/
theorem arrayUnion_append (votes : List (Nat × String)) (p : Nat × String) :
    ∃ tail, arrayUnion votes p = votes ++ tail := by
  by_cases h : p ∈ votes
  · exact ⟨[], by simp [arrayUnion, h]⟩
  · exact ⟨[p], by simp [arrayUnion, h]⟩

/-- A run of `n` sequential allocator calls returns `n` values. -/
theorem runAllocator_length (n : Nat) : ∀ c : Nat, ((runAllocator c n).1).length = n := by
  induction n with
  | zero => intro c; simp [runAllocator]
  | succ n ih => intro c; simp [runAllocator, ih]

/-- Once the positivity check passes, `handleSubmit` always issues the
counter increment first and then the `createVote` call carrying the freshly
incremented vote id, the computed duration, and the non-blank options, and
it persists the incremented counter; this holds whatever the outcome of the
later external calls. -/
theorem handleSubmit_effects_shape (env : SubmitEnv) (acc voteName : String)
    (st days gid : Int) (opts : List String)
    (hpass : ¬(days * 24 * 60 * 60 ≤ 0 ∨ gid ≤ 0)) :
    (∃ rest, (handleSubmit env (some acc) voteName st days gid opts).effects =
      Effect.counterIncrement (fetchAndUpdateVoteId env.counter).2 ::
      Effect.createVote (fetchAndUpdateVoteId env.counter).1 voteName st
        (days * 24 * 60 * 60) gid (opts.filter fun o => o.trim ≠ "") :: rest) ∧
    (handleSubmit env (some acc) voteName st days gid opts).counter =
      (fetchAndUpdateVoteId env.counter).2 := by
  obtain ⟨c, doc, cv, sd, gu, av, isA, gA⟩ := env
  simp only [handleSubmit, if_neg hpass]
  cases cv with
  | error t => exact ⟨⟨_, rfl⟩, by first | rfl | trivial⟩
  | ok u =>
    cases sd with
    | error t => exact ⟨⟨_, rfl⟩, by first | rfl | trivial⟩
    | ok u2 =>
      cases gu with
      | error t => exact ⟨⟨_, rfl⟩, by first | rfl | trivial⟩
      | ok users =>
        by_cases hlen : (checksummedAddresses isA gA users).length = 0
        · simp only [if_pos hlen]
          exact ⟨⟨_, rfl⟩, by first | rfl | trivial⟩
        · simp only [if_neg hlen]
          cases av with
          | error t => exact ⟨⟨_, rfl⟩, by first | rfl | trivial⟩
          | ok u3 => exact ⟨⟨_, rfl⟩, by first | rfl | trivial⟩

/-- C2: every row produced by the `formattedVotes` mapping of
`ParticipatedVotes` has `status = true` exactly when the contract's open
flag at that index is true and the current time is strictly before
`startTime + duration`; times are epoch milliseconds exactly as the code
compares `Date` objects, and `nowMs < (start + dur) * 1000` is the same
window as `now < start + dur` in epoch seconds. Once the current time
passes the end of the window the status is false regardless of the flag. -/
theorem C2_status_window (nowMs : Nat) (r : AccessibleVotes) (i : Nat) (row : VoteRow)
    (h : (formattedVotes nowMs r)[i]? = some row) :
    (row.status = true ↔
      r.openStatuses.getD i false = true ∧
        nowMs < (r.startVoteTimes.getD i 0 + r.durations.getD i 0) * 1000) ∧
    ((r.startVoteTimes.getD i 0 + r.durations.getD i 0) * 1000 < nowMs →
      row.status = false) := by
  have hi : i < r.voteIDs.length := by
    by_contra hlt
    push_neg at hlt
    have hnone : (formattedVotes nowMs r)[i]? = none :=
      List.getElem?_eq_none (by simpa [formattedVotes_length] using hlt)
    rw [hnone] at h
    exact Option.noConfusion h
  rw [formattedVotes_getElem nowMs r i hi] at h
  injection h with h
  subst h
  constructor
  · simp [Bool.and_eq_true]
  · intro hgt
    have hn : ¬ nowMs < (r.startVoteTimes.getD i 0 + r.durations.getD i 0) * 1000 := by
      omega
    show (r.openStatuses.getD i false && decide (nowMs <
        (r.startVoteTimes.getD i 0 + r.durations.getD i 0) * 1000)) = false
    rw [decide_eq_false hn, Bool.and_false]

/-- Witness for C2 at a concrete one-row result whose window has passed. -/
theorem C2_status_window_witness :
    (formattedVotes 5000
        { voteIDs := [7], voteNames := ["v"], startVoteTimes := [1],
          durations := [2], openStatuses := [true] })[0]? =
      some { id := 7, name := "v", startDateMs := 1000, endDateMs := 3000,
             status := false } ∧
    ((({ id := 7, name := "v", startDateMs := 1000, endDateMs := 3000,
          status := false } : VoteRow).status = true ↔
        ([true].getD 0 false = true ∧ 5000 < ([1].getD 0 0 + [2].getD 0 0) * 1000)) ∧
      (([1].getD 0 0 + [2].getD 0 0) * 1000 < 5000 →
        ({ id := 7, name := "v", startDateMs := 1000, endDateMs := 3000,
           status := false } : VoteRow).status = false)) :=
  ⟨by decide,
   C2_status_window 5000
     { voteIDs := [7], voteNames := ["v"], startVoteTimes := [1],
       durations := [2], openStatuses := [true] } 0
     { id := 7, name := "v", startDateMs := 1000, endDateMs := 3000, status := false }
     (by decide)⟩

/-- C7: `fetchVotes` resolves the group id from the lowercased account; when
it resolves to `none` the handler stores the error and issues no contract
read; otherwise it issues exactly one `getAccessibleVotes` call for that
group id and the displayed rows are exactly the mapping of the five parallel
result arrays, index-wise and in order. -/
theorem C7_fetchVotes_rows (account : String) (gf : String → Option Int)
    (ga : Int → Except Thrown AccessibleVotes) (nowMs : Nat) :
    (gf account.toLower = none →
      fetchVotes account gf ga nowMs =
        { error := some "Group ID not found for the user", votes := [], calls := [] }) ∧
    (∀ gid r, gf account.toLower = some gid → ga gid = .ok r →
      (fetchVotes account gf ga nowMs).calls = [gid] ∧
      (fetchVotes account gf ga nowMs).error = none ∧
      (fetchVotes account gf ga nowMs).votes.length = r.voteIDs.length ∧
      (∀ i, i < r.voteIDs.length →
        ((fetchVotes account gf ga nowMs).votes)[i]? = some
          { id := r.voteIDs.getD i 0
            name := r.voteNames.getD i ""
            startDateMs := r.startVoteTimes.getD i 0 * 1000
            endDateMs := (r.startVoteTimes.getD i 0 + r.durations.getD i 0) * 1000
            status := r.openStatuses.getD i false &&
              decide (nowMs <
                (r.startVoteTimes.getD i 0 + r.durations.getD i 0) * 1000) })) := by
  constructor
  · intro hnone
    simp [fetchVotes, hnone]
  · intro gid r hgid hok
    refine ⟨by simp [fetchVotes, hgid, hok], by simp [fetchVotes, hgid, hok],
      by simp [fetchVotes, hgid, hok, formattedVotes_length], ?_⟩
    intro i hi
    simp only [fetchVotes, hgid, hok]
    exact formattedVotes_getElem nowMs r i hi

/-- Witness for C7: a two-row result read for group 3. -/
theorem C7_fetchVotes_rows_witness :
    ((fun _ : String => some (3 : Int)) (String.toLower "acc") = some (3 : Int)) ∧
    (fetchVotes "acc" (fun _ => some (3 : Int))
        (fun _ => .ok
          { voteIDs := [4, 9], voteNames := ["a", "b"], startVoteTimes := [10, 20],
            durations := [5, 5], openStatuses := [true, false] }) 12000).calls = [3] :=
  ⟨rfl,
   ((C7_fetchVotes_rows "acc" (fun _ => some (3 : Int))
        (fun _ => .ok
          { voteIDs := [4, 9], voteNames := ["a", "b"], startVoteTimes := [10, 20],
            durations := [5, 5], openStatuses := [true, false] }) 12000).2 3
      { voteIDs := [4, 9], voteNames := ["a", "b"], startVoteTimes := [10, 20],
        durations := [5, 5], openStatuses := [true, false] } rfl rfl).1⟩

/-- C6: contract-address resolution in `fetchContractDetails` branches on the
account type: a valid manager reads the address from the `voteManagers`
document keyed by the lowercased account; otherwise the address comes from
the user-details document; when the consulted source yields no address the
handler stores "Contract details not found!" and no contract proxy is
instantiated (the `createContract` oracle is irrelevant in that case). -/
theorem C6_contract_resolution (account : String)
    (gdoc : String → Except Thrown (Option String)) (userDetails : Option String)
    (eth : Bool) :
    (∀ a, gdoc account.toLower = .ok (some a) → a ≠ "" → eth = true →
      fetchContractDetails account true gdoc userDetails eth (.ok ()) =
        { error := none, contract := some a }) ∧
    (∀ a, userDetails = some a → a ≠ "" → eth = true →
      fetchContractDetails account false gdoc userDetails eth (.ok ()) =
        { error := none, contract := some a }) ∧
    (∀ cc, gdoc account.toLower = .ok none →
      fetchContractDetails account true gdoc userDetails eth cc =
        { error := some "Contract details not found!", contract := none }) ∧
    (∀ cc, userDetails = none →
      fetchContractDetails account false gdoc userDetails eth cc =
        { error := some "Contract details not found!", contract := none }) := by
  refine ⟨?_, ?_, ?_, ?_⟩
  · intro a hdoc ha heth
    subst heth
    simp [fetchContractDetails, hdoc, truthyAddr, ha]
  · intro a hud ha heth
    subst heth hud
    simp [fetchContractDetails, truthyAddr, ha]
  · intro cc hdoc
    simp [fetchContractDetails, hdoc, truthyAddr]
  · intro cc hud
    subst hud
    simp [fetchContractDetails, truthyAddr]

/-- Witness for C6: a manager whose document holds address "0xCAFE". -/
theorem C6_contract_resolution_witness :
    ((fun _ : String => (Except.ok (some "0xCAFE") : Except Thrown (Option String)))
        (String.toLower "m") = .ok (some "0xCAFE")) ∧
    "0xCAFE" ≠ "" ∧
    fetchContractDetails "m" true (fun _ => .ok (some "0xCAFE")) none true (.ok ()) =
      { error := none, contract := some "0xCAFE" } :=
  ⟨rfl, by decide,
   (C6_contract_resolution "m" (fun _ => .ok (some "0xCAFE")) none true).1
     "0xCAFE" rfl (by decide) rfl⟩

/-- C1: over any run of sequential allocator calls, the `i`-th returned
value is the persisted counter after incrementing it by one (`c + i + 1`,
which is also the counter persisted after `i + 1` calls), so returns are
strictly increasing; and `handleSubmit` passes the freshly incremented
counter value `(fetchAndUpdateVoteId env.counter).1` to `createVote`, which
is strictly greater than (hence not) the `getCurrentVoteId` value displayed
on mount. -/
theorem C1_vote_id_allocation (c n i : Nat) (hi : i < n) (env : SubmitEnv)
    (acc voteName : String) (st days gid : Int) (opts : List String)
    (hd : 0 < days) (hg : 0 < gid) :
    ((runAllocator c n).1)[i]? = some (c + i + 1) ∧
    (runAllocator c (i + 1)).2 = c + i + 1 ∧
    (∀ j k a b : Nat, j < k → ((runAllocator c n).1)[j]? = some a →
      ((runAllocator c n).1)[k]? = some b → a < b) ∧
    (∃ rest, (handleSubmit env (some acc) voteName st days gid opts).effects =
      Effect.counterIncrement (fetchAndUpdateVoteId env.counter).2 ::
      Effect.createVote (fetchAndUpdateVoteId env.counter).1 voteName st
        (days * 24 * 60 * 60) gid (opts.filter fun o => o.trim ≠ "") :: rest) ∧
    getCurrentVoteId env.counter < (fetchAndUpdateVoteId env.counter).1 := by
  have hpass : ¬(days * 24 * 60 * 60 ≤ 0 ∨ gid ≤ 0) := by omega
  refine ⟨runAllocator_get n c i hi, ?_, ?_, (handleSubmit_effects_shape env acc
    voteName st days gid opts hpass).1, ?_⟩
  · rw [runAllocator_snd]
    omega
  · intro j k a b hjk hja hkb
    have hk : k < n := by
      have h1 := (List.getElem?_eq_some.mp hkb).1
      rwa [runAllocator_length] at h1
    have hj : j < n := Nat.lt_trans hjk hk
    have e1 := hja.symm.trans (runAllocator_get n c j hj)
    have e2 := hkb.symm.trans (runAllocator_get n c k hk)
    injection e1 with e1
    injection e2 with e2
    omega
  · simp [getCurrentVoteId, fetchAndUpdateVoteId]

/-- Witness for C1: two sequential calls from counter 0, and a concrete
submit from counter 5. -/
theorem C1_vote_id_allocation_witness :
    ((runAllocator 0 2).1)[0]? = some 1 ∧
    (runAllocator 0 1).2 = 1 ∧
    (∀ j k a b : Nat, j < k → ((runAllocator 0 2).1)[j]? = some a →
      ((runAllocator 0 2).1)[k]? = some b → a < b) ∧
    (∃ rest, (handleSubmit envOk (some "m") "n" 0 1 1 ["a", ""]).effects =
      Effect.counterIncrement (fetchAndUpdateVoteId envOk.counter).2 ::
      Effect.createVote (fetchAndUpdateVoteId envOk.counter).1 "n" 0
        (1 * 24 * 60 * 60) 1 (["a", ""].filter fun o => o.trim ≠ "") :: rest) ∧
    getCurrentVoteId envOk.counter < (fetchAndUpdateVoteId envOk.counter).1 :=
  C1_vote_id_allocation 0 2 0 (by decide) envOk "m" "n" 0 1 1 ["a", ""]
    (by decide) (by decide)

/-- C8: the duration argument carried by the `createVote` call equals the
duration input in whole days times 86400, computed exactly on arbitrary
precision integers (BigInt is modelled by `Int`, so there is no rounding
and no overflow). -/
theorem C8_duration_seconds (env : SubmitEnv) (acc voteName : String)
    (st days gid : Int) (opts : List String) (hd : 0 < days) (hg : 0 < gid) :
    (∃ rest, (handleSubmit env (some acc) voteName st days gid opts).effects =
      Effect.counterIncrement (fetchAndUpdateVoteId env.counter).2 ::
      Effect.createVote (fetchAndUpdateVoteId env.counter).1 voteName st
        (days * 86400) gid (opts.filter fun o => o.trim ≠ "") :: rest) ∧
    days * 86400 = days * (24 * 60 * 60) := by
  have hpass : ¬(days * 24 * 60 * 60 ≤ 0 ∨ gid ≤ 0) := by omega
  obtain ⟨⟨rest, hrest⟩, _⟩ :=
    handleSubmit_effects_shape env acc voteName st days gid opts hpass
  refine ⟨⟨rest, ?_⟩, by ring⟩
  rw [show days * 86400 = days * 24 * 60 * 60 by ring]
  exact hrest

/-- Witness for C8: a 3-day duration becomes 259200 seconds. -/
theorem C8_duration_seconds_witness :
    (∃ rest, (handleSubmit envOk (some "m") "n" 0 3 1 []).effects =
      Effect.counterIncrement (fetchAndUpdateVoteId envOk.counter).2 ::
      Effect.createVote (fetchAndUpdateVoteId envOk.counter).1 "n" 0
        ((3 : Int) * 86400) 1 ([].filter fun o => o.trim ≠ "") :: rest) ∧
    (3 : Int) * 86400 = 3 * (24 * 60 * 60) :=
  C8_duration_seconds envOk "m" "n" 0 3 1 [] (by decide) (by decide)

/-- C9: when the computed duration or the group id is non-positive,
`handleSubmit` stores exactly the message "Duration and group ID must be a
positive number." and issues no effect at all, so the shared counter, the
contract and the `usersVotes` document are untouched; and whenever the check
passes and every external call succeeds with at least one valid address, no
error is stored, so that message appears exactly when the check fails. -/
theorem C9_positivity_check (env : SubmitEnv) (acc voteName : String)
    (st days gid : Int) (opts : List String) :
    ((days * 24 * 60 * 60 ≤ 0 ∨ gid ≤ 0) →
      handleSubmit env (some acc) voteName st days gid opts =
        { error := some "Duration and group ID must be a positive number.",
          effects := [], counter := env.counter,
          usersVotesDoc := env.usersVotesDoc }) ∧
    (∀ users, env.createVoteResult = .ok () → env.setDocResult = .ok () →
      env.getUsersResult = .ok users → env.addVotersResult = .ok () →
      (checksummedAddresses env.isAddress env.getAddress users).length ≠ 0 →
      ¬(days * 24 * 60 * 60 ≤ 0 ∨ gid ≤ 0) →
      (handleSubmit env (some acc) voteName st days gid opts).error = none) := by
  obtain ⟨c, doc, cv, sd, gu, av, isA, gA⟩ := env
  constructor
  · intro h
    simp only [handleSubmit, if_pos h]
  · intro users h1 h2 h3 h4 hlen hpass
    subst h1 h2 h3 h4
    simp only [handleSubmit, if_neg hpass, if_neg hlen]

/-- Witness for C9: a negative-days submit leaves everything unchanged. -/
theorem C9_positivity_check_witness :
    handleSubmit envOk (some "m") "n" 0 (-1) 1 [] =
      { error := some "Duration and group ID must be a positive number.",
        effects := [], counter := 5, usersVotesDoc := [(1, "old")] } :=
  (C9_positivity_check envOk "m" "n" 0 (-1) 1 []).1 (Or.inl (by decide))

/-- C3: the list passed to `contract.addVoters` is exactly the
`getUsersByGroupId` result filtered by `ethers.isAddress` and mapped through
`ethers.getAddress` (`checksummedAddresses`): the filter keeps exactly the
valid entries, in their original relative order (a sublist), and when no
entry is valid `addVoters` is never called and an error is stored instead. -/
theorem C3_address_filtering (env : SubmitEnv) (acc voteName : String)
    (st days gid : Int) (opts : List String) (users : List String)
    (hd : 0 < days) (hg : 0 < gid)
    (hcv : env.createVoteResult = .ok ()) (hsd : env.setDocResult = .ok ())
    (hgu : env.getUsersResult = .ok users) :
    (users.filter env.isAddress).Sublist users ∧
    (∀ a, a ∈ users.filter env.isAddress ↔ a ∈ users ∧ env.isAddress a = true) ∧
    ((users.filter env.isAddress).length ≠ 0 →
      Effect.addVoters (fetchAndUpdateVoteId env.counter).1
        (checksummedAddresses env.isAddress env.getAddress users) gid ∈
        (handleSubmit env (some acc) voteName st days gid opts).effects) ∧
    ((users.filter env.isAddress).length = 0 →
      (∀ vid addrs g, Effect.addVoters vid addrs g ∉
        (handleSubmit env (some acc) voteName st days gid opts).effects) ∧
      (handleSubmit env (some acc) voteName st days gid opts).error =
        some addVotersFailMsg) := by
  have hpass : ¬(days * 24 * 60 * 60 ≤ 0 ∨ gid ≤ 0) := by omega
  refine ⟨List.filter_sublist users, fun a => List.mem_filter, ?_, ?_⟩
  · intro hlen
    have hlen' : ¬ (checksummedAddresses env.isAddress env.getAddress users).length = 0 := by
      simpa [checksummedAddresses] using hlen
    simp only [handleSubmit, hcv, hsd, hgu, if_neg hpass, if_neg hlen']
    cases hav : env.addVotersResult with
    | error t => simp
    | ok u => simp
  · intro hlen
    have hlen' : (checksummedAddresses env.isAddress env.getAddress users).length = 0 := by
      simpa [checksummedAddresses] using hlen
    simp only [handleSubmit, hcv, hsd, hgu, if_neg hpass, if_pos hlen']
    exact ⟨fun vid addrs g => by simp, by first | rfl | trivial⟩

/-- Witness for C3: one of three candidate addresses is invalid; the two
valid ones are forwarded checksummed and in order. -/
theorem C3_address_filtering_witness :
    (["aaaa", "bad", "bbbb"].filter envOk.isAddress).Sublist
      ["aaaa", "bad", "bbbb"] ∧
    ("aaaa" ∈ ["aaaa", "bad", "bbbb"].filter envOk.isAddress ↔
      "aaaa" ∈ ["aaaa", "bad", "bbbb"] ∧ envOk.isAddress "aaaa" = true) :=
  ⟨(C3_address_filtering envOk "m" "n" 0 1 1 [] ["aaaa", "bad", "bbbb"]
      (by decide) (by decide) rfl rfl rfl).1,
   (C3_address_filtering envOk "m" "n" 0 1 1 [] ["aaaa", "bad", "bbbb"]
      (by decide) (by decide) rfl rfl rfl).2.1 "aaaa"⟩

/-- C5: when the `createVote` transaction and the document write succeed, the
`(voteID, voteName)` pair is merged via `arrayUnion` into the `usersVotes`
document keyed by the lowercased account, the merge effect sits strictly
after the `createVote` effect in the trace, and the previous document
content is an unchanged initial segment of the merged content; when the
creation transaction throws, no merge effect is ever issued and the document
is untouched. -/
theorem C5_users_votes_merge (env : SubmitEnv) (acc voteName : String)
    (st days gid : Int) (opts : List String) (hd : 0 < days) (hg : 0 < gid) :
    (env.createVoteResult = .ok () → env.setDocResult = .ok () →
      (∃ rest, (handleSubmit env (some acc) voteName st days gid opts).effects =
        Effect.counterIncrement (fetchAndUpdateVoteId env.counter).2 ::
        Effect.createVote (fetchAndUpdateVoteId env.counter).1 voteName st
          (days * 24 * 60 * 60) gid (opts.filter fun o => o.trim ≠ "") ::
        Effect.usersVotesMerge acc.toLower (fetchAndUpdateVoteId env.counter).1
          voteName :: rest) ∧
      (handleSubmit env (some acc) voteName st days gid opts).usersVotesDoc =
        arrayUnion env.usersVotesDoc ((fetchAndUpdateVoteId env.counter).1, voteName) ∧
      (∃ tail, (handleSubmit env (some acc) voteName st days gid opts).usersVotesDoc =
        env.usersVotesDoc ++ tail)) ∧
    (∀ t, env.createVoteResult = .error t →
      (∀ k vid nm, Effect.usersVotesMerge k vid nm ∉
        (handleSubmit env (some acc) voteName st days gid opts).effects) ∧
      (handleSubmit env (some acc) voteName st days gid opts).usersVotesDoc =
        env.usersVotesDoc) := by
  have hpass : ¬(days * 24 * 60 * 60 ≤ 0 ∨ gid ≤ 0) := by omega
  constructor
  · intro hcv hsd
    simp only [handleSubmit, hcv, hsd, if_neg hpass]
    cases hgu : env.getUsersResult with
    | error t => exact ⟨⟨_, rfl⟩, by first | rfl | trivial, arrayUnion_append _ _⟩
    | ok users =>
      by_cases hlen : (checksummedAddresses env.isAddress env.getAddress users).length = 0
      · simp only [if_pos hlen]
        exact ⟨⟨_, rfl⟩, by first | rfl | trivial, arrayUnion_append _ _⟩
      · simp only [if_neg hlen]
        cases hav : env.addVotersResult with
        | error t2 => exact ⟨⟨_, rfl⟩, by first | rfl | trivial, arrayUnion_append _ _⟩
        | ok u => exact ⟨⟨_, rfl⟩, by first | rfl | trivial, arrayUnion_append _ _⟩
  · intro t hcv
    simp only [handleSubmit, hcv, if_neg hpass]
    exact ⟨fun k vid nm => by simp, by first | rfl | trivial⟩

/-- Witness for C5: a successful creation from counter 5 merges `(6, "n")`
after the old entry `(1, "old")`. -/
theorem C5_users_votes_merge_witness :
    (∃ rest, (handleSubmit envOk (some "M") "n" 0 1 1 []).effects =
      Effect.counterIncrement (fetchAndUpdateVoteId envOk.counter).2 ::
      Effect.createVote (fetchAndUpdateVoteId envOk.counter).1 "n" 0
        ((1 : Int) * 24 * 60 * 60) 1 ([].filter fun o => o.trim ≠ "") ::
      Effect.usersVotesMerge (String.toLower "M") (fetchAndUpdateVoteId envOk.counter).1
        "n" :: rest) ∧
    (handleSubmit envOk (some "M") "n" 0 1 1 []).usersVotesDoc =
      arrayUnion envOk.usersVotesDoc ((fetchAndUpdateVoteId envOk.counter).1, "n") ∧
    (∃ tail, (handleSubmit envOk (some "M") "n" 0 1 1 []).usersVotesDoc =
      envOk.usersVotesDoc ++ tail) :=
  (C5_users_votes_merge envOk "M" "n" 0 1 1 [] (by decide) (by decide)).1 rfl rfl

/-- C10: every reachable `voteOptions` state has between 2 and 10 entries:
the initial and reset states are two empty options, `handleOptionChange`
preserves the length, `addOption` appends an empty option only below 10 and
otherwise only sets the maximum-options error; and the options forwarded to
`createVote` are the non-blank (after trim) entries in their original
order. -/
theorem C10_options_invariant (events : List OptionsEvent) :
    (2 ≤ (runOptions events).voteOptions.length ∧
      (runOptions events).voteOptions.length ≤ 10) ∧
    initOptions.voteOptions = ["", ""] ∧
    (∀ s, (stepOptions s .reset).voteOptions = ["", ""]) ∧
    (∀ s i v, ((stepOptions s (.change i v)).voteOptions).length =
      s.voteOptions.length) ∧
    (∀ s, s.voteOptions.length < 10 →
      stepOptions s .add = { s with voteOptions := s.voteOptions ++ [""] }) ∧
    (∀ s, ¬ s.voteOptions.length < 10 →
      stepOptions s .add =
        { s with error := some "A maximum of 10 options are allowed." }) ∧
    (∀ env acc voteName st days gid opts, (0 : Int) < days → (0 : Int) < gid →
      ∃ rest, (handleSubmit env (some acc) voteName st days gid opts).effects =
        Effect.counterIncrement (fetchAndUpdateVoteId env.counter).2 ::
        Effect.createVote (fetchAndUpdateVoteId env.counter).1 voteName st
          (days * 24 * 60 * 60) gid (opts.filter fun o => o.trim ≠ "") :: rest) := by
  refine ⟨foldl_stepOptions_bounds events initOptions (by decide) (by decide),
    rfl, fun s => rfl, fun s i v => by simp [stepOptions], ?_, ?_, ?_⟩
  · intro s h
    simp [stepOptions, h]
  · intro s h
    simp [stepOptions, h]
  · intro env acc voteName st days gid opts hd hg
    have hpass : ¬(days * 24 * 60 * 60 ≤ 0 ∨ gid ≤ 0) := by omega
    exact (handleSubmit_effects_shape env acc voteName st days gid opts hpass).1

/-- Witness for C10: a reachable three-event run stays in bounds, and
`addOption` on the two-option state appends a third empty option. -/
theorem C10_options_invariant_witness :
    (2 ≤ (runOptions [.add, .change 0 "x", .reset]).voteOptions.length ∧
      (runOptions [.add, .change 0 "x", .reset]).voteOptions.length ≤ 10) ∧
    stepOptions { voteOptions := ["", ""], error := none } .add =
      { voteOptions := ["", "", ""], error := none } :=
  ⟨(C10_options_invariant [.add, .change 0 "x", .reset]).1,
   (C10_options_invariant []).2.2.2.2.1 { voteOptions := ["", ""], error := none }
     (by decide)⟩

/-- C4 counterexample: the claim says every `Error` thrown inside
`handleSubmit` has its message stored, but when the `addVoters` call throws
`Error("boom")` the stored string is the fixed add-voters failure message,
not "boom". -/
theorem C4_counterexample :
    envBoom.addVotersResult = .error (Thrown.error "boom") ∧
    (handleSubmit envBoom (some "m") "n" 0 1 1 []).error =
      some "Failed to add voters. Please check the addresses and try again." ∧
    "Failed to add voters. Please check the addresses and try again." ≠ "boom" :=
  ⟨rfl, rfl, by decide⟩

/-- C4 (amended): every error thrown inside `fetchData`,
`fetchContractDetails`, `fetchVotes` or the outer block of `handleSubmit` is
caught, never propagated, and stored as the thrown `Error`'s message (or the
fixed string "An unexpected error occurred" for non-`Error` values); errors
thrown inside `handleSubmit`'s add-voters sub-block are instead stored as
the fixed string "Failed to add voters. Please check the addresses and try
again.", with no retry in either case. -/
theorem C4_error_handling (t : Thrown) :
    (∀ msg, catchMessage (Thrown.error msg) = msg ∧
      catchMessage .nonError = "An unexpected error occurred") ∧
    (∀ acc gdoc eth cc counter, gdoc (String.toLower acc) = .error t →
      (fetchData "connected" (some acc) gdoc eth cc counter).error =
        some (catchMessage t)) ∧
    (∀ acc gdoc d counter, gdoc (String.toLower acc) = .ok (some d) →
      (fetchData "connected" (some acc) gdoc true (.error t) counter).error =
        some (catchMessage t)) ∧
    (∀ acc gdoc ud eth cc, gdoc (String.toLower acc) = .error t →
      (fetchContractDetails acc true gdoc ud eth cc).error =
        some (catchMessage t)) ∧
    (∀ acc gdoc ud a, gdoc (String.toLower acc) = .ok (some a) → a ≠ "" →
      (fetchContractDetails acc true gdoc ud true (.error t)).error =
        some (catchMessage t)) ∧
    (∀ acc gf ga nowMs gid, gf (String.toLower acc) = some gid →
      ga gid = .error t →
      (fetchVotes acc gf ga nowMs).error = some (catchMessage t)) ∧
    (∀ env : SubmitEnv, ∀ acc nm : String, ∀ st days gid : Int,
      ∀ opts : List String, 0 < days → 0 < gid →
      env.createVoteResult = .error t →
      (handleSubmit env (some acc) nm st days gid opts).error =
        some (catchMessage t)) ∧
    (∀ env : SubmitEnv, ∀ acc nm : String, ∀ st days gid : Int,
      ∀ opts : List String, 0 < days → 0 < gid →
      env.createVoteResult = .ok () → env.setDocResult = .error t →
      (handleSubmit env (some acc) nm st days gid opts).error =
        some (catchMessage t)) ∧
    (∀ env : SubmitEnv, ∀ acc nm : String, ∀ st days gid : Int,
      ∀ opts : List String, 0 < days → 0 < gid →
      env.createVoteResult = .ok () → env.setDocResult = .ok () →
      env.getUsersResult = .error t →
      (handleSubmit env (some acc) nm st days gid opts).error =
        some addVotersFailMsg) ∧
    (∀ env : SubmitEnv, ∀ acc nm : String, ∀ st days gid : Int,
      ∀ opts users, 0 < days → 0 < gid →
      env.createVoteResult = .ok () → env.setDocResult = .ok () →
      env.getUsersResult = .ok users →
      (checksummedAddresses env.isAddress env.getAddress users).length ≠ 0 →
      env.addVotersResult = .error t →
      (handleSubmit env (some acc) nm st days gid opts).error =
        some addVotersFailMsg) := by
  refine ⟨fun msg => ⟨rfl, rfl⟩, ?_, ?_, ?_, ?_, ?_, ?_, ?_, ?_, ?_⟩
  · intro acc gdoc eth cc counter hdoc
    simp [fetchData, hdoc]
  · intro acc gdoc d counter hdoc
    simp [fetchData, hdoc]
  · intro acc gdoc ud eth cc hdoc
    simp [fetchContractDetails, hdoc]
  · intro acc gdoc ud a hdoc ha
    simp [fetchContractDetails, hdoc, truthyAddr, ha]
  · intro acc gf ga nowMs gid hgid hga
    simp [fetchVotes, hgid, hga]
  · intro env acc nm st days gid opts hd hg hcv
    have hpass : ¬(days * 24 * 60 * 60 ≤ 0 ∨ gid ≤ 0) := by omega
    simp only [handleSubmit, hcv, if_neg hpass]
  · intro env acc nm st days gid opts hd hg hcv hsd
    have hpass : ¬(days * 24 * 60 * 60 ≤ 0 ∨ gid ≤ 0) := by omega
    simp only [handleSubmit, hcv, hsd, if_neg hpass]
  · intro env acc nm st days gid opts hd hg hcv hsd hgu
    have hpass : ¬(days * 24 * 60 * 60 ≤ 0 ∨ gid ≤ 0) := by omega
    simp only [handleSubmit, hcv, hsd, hgu, if_neg hpass]
  · intro env acc nm st days gid opts users hd hg hcv hsd hgu hlen hav
    have hpass : ¬(days * 24 * 60 * 60 ≤ 0 ∨ gid ≤ 0) := by omega
    simp only [handleSubmit, hcv, hsd, hgu, hav, if_neg hpass, if_neg hlen]

/-- Witness for the amended C4: a non-`Error` thrown by `createVote` is
stored as the fixed fallback string. -/
theorem C4_error_handling_witness :
    (handleSubmit
        { counter := 0, usersVotesDoc := [], createVoteResult := .error .nonError,
          setDocResult := .ok (), getUsersResult := .ok [], addVotersResult := .ok (),
          isAddress := fun _ => true, getAddress := fun a => a }
        (some "m") "n" 0 1 1 []).error = some (catchMessage .nonError) :=
  (C4_error_handling .nonError).2.2.2.2.2.2.1
    { counter := 0, usersVotesDoc := [], createVoteResult := .error .nonError,
      setDocResult := .ok (), getUsersResult := .ok [], addVotersResult := .ok (),
      isAddress := fun _ => true, getAddress := fun a => a }
    "m" "n" 0 1 1 [] (by decide) (by decide) rfl

end Voting
